import Mathlib

/-!
Verification development for the random-forest thermal-correction pipeline
in `Codes/Machine Learning model/RF_model.py`.

The Python source is shallowly embedded:
machine integers become `Nat`, floating-point raster values become `ℚ`
(claims about this code are stated in exact arithmetic), the unseeded
random source becomes an explicit oracle `g : Nat → Nat` giving the raw
value of the t-th draw (`np.random.randint(lo, hi)` is embedded as
`lo + g t % (hi - lo)`, which ranges over exactly [lo, hi) as the oracle
varies), and fallible operations (NumPy fancy indexing, integer division)
return `Except`.
-/

namespace RFModel

/-- Embedding of `int(np.sqrt n)` for natural `n`: the floor square root,
computed by a kernel-reducible bounded search (`Nat.sqrt` itself is defined
by well-founded recursion and does not reduce under `decide`). -/
def isqrtGo (n : Nat) : Nat → Nat → Nat
  | 0, acc => acc
  | fuel + 1, acc => if (acc + 1) * (acc + 1) ≤ n then isqrtGo n fuel (acc + 1) else acc

def isqrt (n : Nat) : Nat := isqrtGo n n 0

/-- Embedding of `np.random.randint(lo, hi)` as the t-th draw from the raw
oracle `g`; for `lo < hi` the result always lies in `[lo, hi)`. -/
def draw (g : Nat → Nat) (t lo hi : Nat) : Nat := lo + g t % (hi - lo)

/-- One point of the blocked phase of `semi_random_sample`: for block
`(i, j)` the source draws `x` in `[i*submat_size, (i+1)*submat_size)` and
`y` in `[j*submat_size, (j+1)*submat_size)` and appends `x*matrix_size + y`.
The two draws are consecutive calls on the global random stream. -/
def blockPoint (N size steps : Nat) (g : Nat → Nat) (i j : Nat) : Nat :=
  draw g (2 * (i * steps + j)) (i * size) ((i + 1) * size) * N
    + draw g (2 * (i * steps + j) + 1) (j * size) ((j + 1) * size)

/-- The double loop of `semi_random_sample` (lines 38-46 of RF_model.py):
`submat_size = matrix_size // int(np.sqrt(num_samples))`,
`submat_steps = int(matrix_size / submat_size)`, one point per block. -/
def blockedPhase (N K : Nat) (g : Nat → Nat) : List Nat :=
  let size := N / isqrt K
  let steps := N / size
  (List.range steps).flatMap fun i =>
    (List.range steps).map fun j => blockPoint N size steps g i j

/-- One top-up point: `x = randint(0, N)`, `y = randint(0, N)`,
appended as `x*N + y`. -/
def topUpPoint (N : Nat) (g : Nat → Nat) (t : Nat) : Nat :=
  draw g t 0 N * N + draw g (t + 1) 0 N

/-- Embedding of `semi_random_sample(matrix_size, num_samples)`: the blocked
phase followed by the `while len(points) < 1000` top-up loop, whose draws
continue the random stream after the `2 * length` draws of the blocked
phase. -/
def semi_random_sample (N K : Nat) (g : Nat → Nat) : List Nat :=
  let pts := blockedPhase N K g
  pts ++ (List.range (1000 - pts.length)).map fun k =>
    topUpPoint N g (2 * pts.length + 2 * k)

inductive SampleError where
  | divisionByZero
deriving DecidableEq

/-- `semi_random_sample` with the two integer divisions of lines 34-35
checked: `matrix_size // int(np.sqrt(num_samples))` raises
`ZeroDivisionError` when `int(np.sqrt(num_samples)) = 0`, and
`int(matrix_size / submat_size)` raises it when `submat_size = 0`. -/
def semi_random_sampleChecked (N K : Nat) (g : Nat → Nat) : Except SampleError (List Nat) :=
  if isqrt K = 0 then Except.error SampleError.divisionByZero
  else if N / isqrt K = 0 then Except.error SampleError.divisionByZero
  else Except.ok (semi_random_sample N K g)

/-- Embedding of the Python string split `s.split(c)` at the character-list
level (the library `String.splitOn` is defined by well-founded recursion and
does not reduce under `decide`). -/
def splitChar (c : Char) : List Char → List (List Char)
  | [] => [[]]
  | ch :: rest =>
    let r := splitChar c rest
    if ch = c then [] :: r
    else (ch :: r.headD []) :: r.tail

/-- Embedding of `path.split(slash)[-1]`. -/
def basename (s : String) : String := ⟨(splitChar '/' s.data).getLastD []⟩

/-- Embedding of the Python slice `s[:-n]`. -/
def dropRightStr (n : Nat) (s : String) : String := ⟨s.data.take (s.data.length - n)⟩

/-- Output naming of `RF_Correction_Model.test` (lines 175 and 188):
`name = sub_flight.split(slash)[-1][:-4]` and the saved file is
`name + _Correction_map.npy`. -/
def outputName (m1Path : String) : String :=
  String.append (dropRightStr 4 (basename m1Path)) "_Correction_map.npy"

/-- The five feature roles of the catalog (line 74). -/
def featureRoles : List String := ["TGI", "height", "shade", "real_solar", "skyview"]

/-- The filesystem oracle seen by `RF_Correction_Model.__init__`: the sorted
`glob` results for the prior-model output files, for each per-flight feature
pattern, and for each per-flight thermal-ir pattern. -/
structure Listing where
  outputFiles : List String
  featureFiles : String → String → List String
  irFiles : String → List String

/-- Embedding of the Python slice `l[::n]`. -/
def everyNthAux (n : Nat) : Nat → List String → List String
  | _, [] => []
  | 0, a :: rest => a :: everyNthAux n (n - 1) rest
  | k + 1, _ :: rest => everyNthAux n k rest

def everyNth (n : Nat) (l : List String) : List String := everyNthAux n 0 l

/-- `self.unique_flights` (line 81): every 5th prior-model file, basename
with the last 26 characters stripped. -/
def uniqueFlights (L : Listing) : List String :=
  (everyNth 5 L.outputFiles).map fun f => dropRightStr 26 (basename f)

/-- The per-feature path list accumulated by the `__init__` loop
(lines 84-88): for each unique flight, append the glob matches for that
feature; a pattern with zero matches silently contributes nothing. -/
def roleFiles (L : Listing) (feature : String) : List String :=
  (uniqueFlights L).flatMap fun name => L.featureFiles name feature

/-- The `IR` path list accumulated by lines 89-91. -/
def irRoleFiles (L : Listing) : List String :=
  (uniqueFlights L).flatMap fun name => L.irFiles name

/-- A listing in which flight `A` has its prior-model file and one `TGI`
file but no `height` file: the scenario of a raster role entirely absent
for a flight that has matches for another role. -/
def incompleteListing : Listing :=
  ⟨["Output/Aabcdefghijklmnopqrstuvwxyz"],
   fun name feature =>
     if name = "A" ∧ feature = "TGI" then ["Input/cropped_A/TGI_0.tif"] else [],
   fun _ => []⟩

/-- The calibration constant 273.16 of line 128, as an exact rational. -/
def kelvinOffset : ℚ := 27316 / 100

def mean (xs : List ℚ) : ℚ := xs.sum / xs.length

/-- Mean-centering `xs - np.nanmean(xs)` (line 129), in exact arithmetic. -/
def centerList (xs : List ℚ) : List ℚ := xs.map fun x => x - mean xs

inductive BuildError where
  | indexError
deriving DecidableEq

/-- NumPy fancy indexing `arr.flatten()[rand]`: the values at the listed
flat positions, or `IndexError` if any position is out of range. -/
def fancyIdx (xs : List ℚ) : List Nat → Except BuildError (List ℚ)
  | [] => Except.ok []
  | i :: rest =>
    if h : i < xs.length then
      match fancyIdx xs rest with
      | Except.ok vs => Except.ok (xs[i] :: vs)
      | Except.error e => Except.error e
    else Except.error BuildError.indexError

/-- `pred_error_m1` of lines 127-128: prior-model values at the sampled
indices minus ground-truth values at the sampled indices minus 273.16. -/
def cropPredError (m1 ir : List ℚ) (rand : List Nat) : Except BuildError (List ℚ) :=
  match fancyIdx m1 rand, fancyIdx ir rand with
  | Except.ok a, Except.ok b => Except.ok (List.zipWith (fun x y => x - y - kelvinOffset) a b)
  | Except.error e, _ => Except.error e
  | _, Except.error e => Except.error e

/-- The `PredErrorM1` rows appended for one crop (line 129):
`pred_error_m1 - np.nanmean(pred_error_m1)`. -/
def cropTarget (m1 ir : List ℚ) (rand : List Nat) : Except BuildError (List ℚ) :=
  Except.map centerList (cropPredError m1 ir rand)

/-- One crop of training input rasters, each flattened row-major. -/
structure TrainCrop where
  tgi : List ℚ
  height : List ℚ
  shade : List ℚ
  realSolar : List ℚ
  skyview : List ℚ
  m1 : List ℚ
  ir : List ℚ

/-- The columns appended for one crop by `split_data` (lines 118-129), in
source read order; any out-of-range sampled index surfaces as the
`IndexError` NumPy raises on a mismatched raster. -/
def cropColumns (c : TrainCrop) (rand : List Nat) : Except BuildError (List (List ℚ)) := do
  let tgi ← fancyIdx c.tgi rand
  let height ← fancyIdx c.height rand
  let shade ← fancyIdx c.shade rand
  let realSolar ← fancyIdx c.realSolar rand
  let skyview ← fancyIdx c.skyview rand
  let predM1 ← fancyIdx c.m1 rand
  let predErr ← cropPredError c.m1 c.ir rand
  Except.ok [tgi, height, shade, realSolar, skyview, predM1, centerList predErr]

/-- The per-crop loop of `split_data` (lines 110-129): crops are processed
in order, each with a fresh sample; the source has no exception handler, so
the first failing crop propagates its error and no later crop is reached.
`gs k` is the random stream consumed by crop `k`. -/
def splitDataGo (N pixels : Nat) (gs : Nat → Nat → Nat) :
    Nat → List TrainCrop → Except BuildError (List (List (List ℚ)))
  | _, [] => Except.ok []
  | k, c :: rest =>
    match cropColumns c (semi_random_sample N pixels (gs k)) with
    | Except.ok cols =>
      match splitDataGo N pixels gs (k + 1) rest with
      | Except.ok t => Except.ok (cols :: t)
      | Except.error e => Except.error e
    | Except.error e => Except.error e

def splitData (N pixels : Nat) (gs : Nat → Nat → Nat) (crops : List TrainCrop) :
    Except BuildError (List (List (List ℚ))) :=
  splitDataGo N pixels gs 0 crops

/-- A 1-by-1 crop (flat length 1) in a run configured for N = 2: the
mismatched-raster scenario of claim C8. -/
def badCrop : TrainCrop := ⟨[0], [0], [0], [0], [0], [0], [0]⟩

/-- A correctly sized 2-by-2 crop (flat length 4) for the same run. -/
def goodCrop : TrainCrop :=
  ⟨[1, 2, 3, 4], [1, 2, 3, 4], [1, 2, 3, 4], [1, 2, 3, 4],
   [1, 2, 3, 4], [1, 2, 3, 4], [1, 2, 3, 4]⟩

/-- The sample mask of lines 114-115: `m = np.zeros((N,N)).flatten();
m[rand] = 1`. -/
def maskFlat (N : Nat) (rand : List Nat) : List ℚ :=
  rand.foldl (fun m i => m.set i 1) (List.replicate (N * N) 0)

/-- `flat.reshape((N, N))` in row-major (C) order: row `i` is the slice
`flat[i*N : (i+1)*N]`. -/
def reshape (N : Nat) (xs : List ℚ) : List (List ℚ) :=
  (List.range N).map fun i => (xs.drop (i * N)).take N

/-- One crop of inference inputs: the prior-model file path plus the
flattened rasters read by `test` (lines 176-181). -/
structure CropFiles where
  m1Path : String
  tgi : List ℚ
  height : List ℚ
  shade : List ℚ
  realSolar : List ℚ
  skyview : List ℚ
  m1 : List ℚ

/-- The feature table `dataRF` assembled by `test` (lines 183-185), as an
ordered list of named columns. -/
def featureTable (c : CropFiles) : List (String × List ℚ) :=
  [("PredM1", c.m1), ("TGI", c.tgi), ("Height", c.height),
   ("Shade", c.shade), ("RealSolar", c.realSolar), ("Skyview", c.skyview)]

/-- The model state consumed by `test`: map side `N`, the flight catalog
keys, the training flight list, and the per-flight crop subsets. -/
structure TestState where
  N : Nat
  uniqueFlights : List String
  trainFlights : List String
  crops : String → List CropFiles

/-- Embedding of `RF_Correction_Model.test` (lines 170-188): for each
catalog flight, skip it if it is in the training set, otherwise emit one
(output name, reshaped prediction grid) pair per crop. The fitted
regressor is abstracted as the function `predict` on the feature table. -/
def test (st : TestState) (predict : List (String × List ℚ) → List ℚ) :
    List (String × List (List ℚ)) :=
  st.uniqueFlights.flatMap fun f =>
    if f ∈ st.trainFlights then []
    else (st.crops f).map fun c =>
      (outputName c.m1Path, reshape st.N (predict (featureTable c)))

/-- The insertion-ordered keys of the `dctRF` dictionary (lines 106-108). -/
def dctRFKeys : List String :=
  ["PredM1", "PredErrorM1", "TGI", "Height", "Shade", "RealSolar", "Skyview"]

/-- Columns of `self.RF_train_df` after `reset_index()` (line 133) moved
the old index into a leading `index` column. -/
def trainDFColumns : List String := "index" :: dctRFKeys

/-- The training feature matrix columns: line 142 drops `index` and
`PredErrorM1`, pandas keeps the remaining columns in order. -/
def trainXColumns : List String :=
  trainDFColumns.filter fun c => !(c == "index") && !(c == "PredErrorM1")

inductive PredictError where
  | schemaMismatch
deriving DecidableEq

/-- Modelled from the spec: the schema check of `predict` lives in the
scikit-learn collaborator, not in the repository source; section 4.4 of the
spec requires `predict` to reject feature tables whose columns do not match
the training schema with `SchemaMismatch` and return no predictions. -/
def predictChecked (schema : List String) (pred : List (String × List ℚ) → List ℚ)
    (table : List (String × List ℚ)) : Except PredictError (List ℚ) :=
  if table.map Prod.fst = schema then Except.ok (pred table)
  else Except.error PredictError.schemaMismatch

/-- A concrete test state for witness instantiation: flight `A` is the
training flight, flight `B` has one crop on a 1-by-1 map. -/
def witnessState : TestState :=
  ⟨1, ["A", "B"], ["A"],
   fun f => if f = "B" then [⟨"x/pq.tif", [2], [3], [4], [5], [6], [7]⟩] else []⟩

/-! ## Helper lemmas -/

theorem isqrtGo_spec (n : Nat) : ∀ fuel acc, acc * acc ≤ n →
    n < (acc + fuel + 1) * (acc + fuel + 1) →
    isqrtGo n fuel acc * isqrtGo n fuel acc ≤ n ∧
    n < (isqrtGo n fuel acc + 1) * (isqrtGo n fuel acc + 1) := by
  intro fuel
  induction fuel with
  | zero =>
    intro acc h1 h2
    simp only [isqrtGo]
    exact ⟨h1, by simpa using h2⟩
  | succ f ih =>
    intro acc h1 h2
    by_cases h : (acc + 1) * (acc + 1) ≤ n
    · have hstep : acc + 1 + f + 1 = acc + (f + 1) + 1 := by omega
      have := ih (acc + 1) h (by rw [hstep]; exact h2)
      simpa [isqrtGo, h] using this
    · simp only [isqrtGo, h, if_false]
      exact ⟨h1, by omega⟩

theorem isqrt_spec (n : Nat) :
    isqrt n * isqrt n ≤ n ∧ n < (isqrt n + 1) * (isqrt n + 1) := by
  have := isqrtGo_spec n n 0 (by simp) (by nlinarith)
  simpa [isqrt] using this

theorem isqrt_eq_sqrt (n : Nat) : isqrt n = Nat.sqrt n := by
  have h := isqrt_spec n
  have h1 : isqrt n ≤ Nat.sqrt n := Nat.le_sqrt.mpr h.1
  have h2 : Nat.sqrt n < isqrt n + 1 := Nat.sqrt_lt.mpr h.2
  omega

theorem blockedPhase_length (N K : Nat) (g : Nat → Nat) :
    (blockedPhase N K g).length = (N / (N / isqrt K)) * (N / (N / isqrt K)) := by
  simp [blockedPhase, List.length_flatMap, Function.comp_def, List.map_const]

theorem semi_random_sample_length (N K : Nat) (g : Nat → Nat) :
    (semi_random_sample N K g).length = max (blockedPhase N K g).length 1000 := by
  simp only [semi_random_sample, List.length_append, List.length_map, List.length_range]
  omega

theorem draw_lt (g : Nat → Nat) (t lo hi : Nat) (h : lo < hi) :
    lo ≤ draw g t lo hi ∧ draw g t lo hi < hi := by
  have hm : g t % (hi - lo) < hi - lo := Nat.mod_lt _ (by omega)
  unfold draw
  omega

theorem div_div_self_of_dvd (s n : Nat) (h : s ∣ n) (hs : 0 < s) (hn : 0 < n) :
    n / (n / s) = s := by
  obtain ⟨q, hq⟩ := h
  subst hq
  have hq0 : 0 < q := by
    cases q with
    | zero => simp at hn
    | succ _ => omega
  rw [Nat.mul_div_cancel_left _ hs, Nat.mul_div_cancel _ hq0]

theorem crossIndex_lt (N x y : Nat) (hx : x < N) (hy : y < N) : x * N + y < N * N := by
  have h1 : x * N + y < (x + 1) * N := by
    rw [Nat.succ_mul]
    omega
  have h2 : (x + 1) * N ≤ N * N := Nat.mul_le_mul_right N hx
  omega

theorem blockPoint_range (N size steps : Nat) (g : Nat → Nat) (i j : Nat)
    (hsize : 0 < size) (hi : i < steps) (hj : j < steps) (hsteps : steps * size ≤ N) :
    blockPoint N size steps g i j < N * N := by
  have hxr := draw_lt g (2 * (i * steps + j)) (i * size) ((i + 1) * size)
    (by rw [Nat.succ_mul]; omega)
  have hyr := draw_lt g (2 * (i * steps + j) + 1) (j * size) ((j + 1) * size)
    (by rw [Nat.succ_mul]; omega)
  have hxN : (i + 1) * size ≤ N :=
    le_trans (Nat.mul_le_mul_right size hi) hsteps
  have hyN : (j + 1) * size ≤ N :=
    le_trans (Nat.mul_le_mul_right size hj) hsteps
  exact crossIndex_lt N _ _ (by omega) (by omega)

theorem mem_blockedPhase_lt (N K : Nat) (g : Nat → Nat)
    (h1 : 1 ≤ isqrt K) (h2 : isqrt K ≤ N) :
    ∀ p ∈ blockedPhase N K g, p < N * N := by
  intro p hp
  have hsize : 0 < N / isqrt K := (Nat.one_le_div_iff h1).mpr h2
  simp only [blockedPhase, List.mem_flatMap, List.mem_map, List.mem_range] at hp
  obtain ⟨i, hi, j, hj, rfl⟩ := hp
  exact blockPoint_range N _ _ g i j hsize hi hj (Nat.div_mul_le_self N _)

theorem mem_semi_random_sample_lt (N K : Nat) (g : Nat → Nat)
    (h1 : 1 ≤ isqrt K) (h2 : isqrt K ≤ N) :
    ∀ p ∈ semi_random_sample N K g, p < N * N := by
  intro p hp
  have hN : 0 < N := lt_of_lt_of_le h1 h2
  simp only [semi_random_sample, List.mem_append, List.mem_map, List.mem_range] at hp
  rcases hp with hp | ⟨k, _, rfl⟩
  · exact mem_blockedPhase_lt N K g h1 h2 p hp
  · have hx := draw_lt g (2 * (blockedPhase N K g).length + 2 * k) 0 N hN
    have hy := draw_lt g (2 * (blockedPhase N K g).length + 2 * k + 1) 0 N hN
    exact crossIndex_lt N _ _ (by omega) (by omega)

/-! ## Claim theorems: the spatial sampler -/

/-- C1 counterexample: in the sampler domain, at N = 1024 and K = 2000
(where floor sqrt K = 44), `semi_random_sample` returns 1936 indices, fewer
than max(K, 1000) = 2000, refuting the claimed length bound. -/
theorem semi_random_sample_length_counterexample :
    1 ≤ isqrt 2000 ∧ isqrt 2000 ≤ 1024 ∧
    (semi_random_sample 1024 2000 (fun _ => 0)).length = 1936 ∧
    ¬ (max 2000 1000 ≤ (semi_random_sample 1024 2000 (fun _ => 0)).length) := by
  rw [semi_random_sample_length, blockedPhase_length]
  refine ⟨by decide, by decide, by decide, by decide⟩

/-- C1 (amended): for N and K in the sampler domain
(1 ≤ floor sqrt K ≤ N), the returned index sequence has length at least
1000 (not necessarily at least K) and every element lies in [0, N*N). -/
theorem semi_random_sample_length_and_range (N K : Nat) (g : Nat → Nat)
    (h1 : 1 ≤ isqrt K) (h2 : isqrt K ≤ N) :
    1000 ≤ (semi_random_sample N K g).length ∧
    ∀ p ∈ semi_random_sample N K g, p < N * N := by
  constructor
  · rw [semi_random_sample_length]
    omega
  · exact mem_semi_random_sample_lt N K g h1 h2

/-- C1 witness: the amended theorem applied at N = 4, K = 1 with the zero
oracle. -/
theorem semi_random_sample_length_and_range_witness :
    1000 ≤ (semi_random_sample 4 1 (fun _ => 0)).length ∧
    ∀ p ∈ semi_random_sample 4 1 (fun _ => 0), p < 4 * 4 :=
  semi_random_sample_length_and_range 4 1 (fun _ => 0) (by decide) (by decide)

/-- C2 counterexample: at N = 10, K = 16 (in the sampler domain,
floor sqrt K = 4, which does not divide 10), the blocked phase produces 25
indices, not floor sqrt K squared = 16. -/
theorem blockedPhase_count_counterexample :
    1 ≤ isqrt 16 ∧ isqrt 16 ≤ 10 ∧
    ¬ ((blockedPhase 10 16 (fun _ => 0)).length = isqrt 16 * isqrt 16) := by
  rw [blockedPhase_length]
  refine ⟨by decide, by decide, by decide⟩

/-- C2 (amended): when floor sqrt K divides N (and N, K are in the sampler
domain), the blocked phase uses exactly floor sqrt K blocks per side,
produces exactly floor sqrt K squared indices, and the point of block
(i, j) is x*N + y with x in the i-th row band and y in the j-th column
band of the sub-grid. -/
theorem blockedPhase_blocks (N K : Nat) (g : Nat → Nat)
    (h1 : 1 ≤ isqrt K) (hdvd : isqrt K ∣ N) (h2 : isqrt K ≤ N) :
    (blockedPhase N K g).length = isqrt K * isqrt K ∧
    ∀ i j, i < isqrt K → j < isqrt K →
      blockPoint N (N / isqrt K) (isqrt K) g i j ∈ blockedPhase N K g ∧
      ∃ x y, blockPoint N (N / isqrt K) (isqrt K) g i j = x * N + y ∧
        i * (N / isqrt K) ≤ x ∧ x < (i + 1) * (N / isqrt K) ∧
        j * (N / isqrt K) ≤ y ∧ y < (j + 1) * (N / isqrt K) := by
  have hN : 0 < N := lt_of_lt_of_le h1 h2
  have hsteps : N / (N / isqrt K) = isqrt K :=
    div_div_self_of_dvd (isqrt K) N hdvd h1 hN
  have hsize : 0 < N / isqrt K := (Nat.one_le_div_iff h1).mpr h2
  constructor
  · rw [blockedPhase_length, hsteps]
  · intro i j hi hj
    constructor
    · simp only [blockedPhase, hsteps, List.mem_flatMap, List.mem_map, List.mem_range]
      exact ⟨i, hi, j, hj, rfl⟩
    · have hxr := draw_lt g (2 * (i * isqrt K + j)) (i * (N / isqrt K))
        ((i + 1) * (N / isqrt K)) (by rw [Nat.succ_mul]; omega)
      have hyr := draw_lt g (2 * (i * isqrt K + j) + 1) (j * (N / isqrt K))
        ((j + 1) * (N / isqrt K)) (by rw [Nat.succ_mul]; omega)
      exact ⟨_, _, rfl, hxr.1, hxr.2, hyr.1, hyr.2⟩

/-- C2 witness: the amended theorem applied at N = 4, K = 4 (floor sqrt 4
= 2 divides 4) with the zero oracle. -/
theorem blockedPhase_blocks_witness :
    (blockedPhase 4 4 (fun _ => 0)).length = isqrt 4 * isqrt 4 ∧
    ∀ i j, i < isqrt 4 → j < isqrt 4 →
      blockPoint 4 (4 / isqrt 4) (isqrt 4) (fun _ => 0) i j ∈ blockedPhase 4 4 (fun _ => 0) ∧
      ∃ x y, blockPoint 4 (4 / isqrt 4) (isqrt 4) (fun _ => 0) i j = x * 4 + y ∧
        i * (4 / isqrt 4) ≤ x ∧ x < (i + 1) * (4 / isqrt 4) ∧
        j * (4 / isqrt 4) ≤ y ∧ y < (j + 1) * (4 / isqrt 4) :=
  blockedPhase_blocks 4 4 (fun _ => 0) (by decide) (by decide) (by decide)

/-- C9: the checked sampler succeeds exactly on the domain
1 ≤ floor sqrt K ≤ N; outside it (K = 0, or floor sqrt K greater than N)
one of the two integer divisions of lines 34-35 divides by zero. -/
theorem semi_random_sample_total_iff (N K : Nat) (g : Nat → Nat) :
    (semi_random_sampleChecked N K g = Except.ok (semi_random_sample N K g) ↔
      (1 ≤ isqrt K ∧ isqrt K ≤ N)) ∧
    (semi_random_sampleChecked N K g = Except.error SampleError.divisionByZero ↔
      ¬ (1 ≤ isqrt K ∧ isqrt K ≤ N)) := by
  unfold semi_random_sampleChecked
  by_cases h0 : isqrt K = 0
  · simp [h0]
  · by_cases hz : N / isqrt K = 0
    · have hlt : N < isqrt K := by
        rcases Nat.lt_or_ge N (isqrt K) with h | h
        · exact h
        · exfalso
          have := (Nat.one_le_div_iff (by omega)).mpr h
          omega
      simp only [h0, if_false, hz, if_true]
      simp
      omega
    · have hle : isqrt K ≤ N := by
        by_contra hgt
        exact hz (Nat.div_eq_of_lt (by omega))
      simp only [h0, if_false, hz, if_false]
      simp
      omega

/-! ## Residual centering -/

theorem fancyIdx_ok (xs : List ℚ) :
    ∀ idxs : List Nat, (∀ i ∈ idxs, i < xs.length) →
    fancyIdx xs idxs = Except.ok (idxs.map fun i => xs.getD i 0) := by
  intro idxs
  induction idxs with
  | nil => intro _; rfl
  | cons a rest ih =>
    intro hb
    have ha : a < xs.length := hb a (List.mem_cons_self a rest)
    have hr := ih fun i hi => hb i (List.mem_cons_of_mem a hi)
    simp only [fancyIdx, ha, dif_pos, hr, List.map_cons]
    rw [List.getD_eq_getElem xs 0 ha]

theorem zipWith_map_same (f : ℚ → ℚ → ℚ) (g h : Nat → ℚ) (l : List Nat) :
    List.zipWith f (l.map g) (l.map h) = l.map fun i => f (g i) (h i) := by
  induction l with
  | nil => rfl
  | cons a t ih => simp [ih]

theorem sum_map_sub (xs : List ℚ) (c : ℚ) :
    (xs.map fun x => x - c).sum = xs.sum - xs.length * c := by
  induction xs with
  | nil => simp
  | cons a t ih =>
    simp only [List.map_cons, List.sum_cons, ih, List.length_cons]
    push_cast
    ring

theorem mean_centerList (xs : List ℚ) (h : xs ≠ []) : mean (centerList xs) = 0 := by
  have h0 : xs.length ≠ 0 := fun hl => h (List.length_eq_zero.mp hl)
  have hn : (xs.length : ℚ) ≠ 0 := Nat.cast_ne_zero.mpr h0
  unfold mean centerList
  rw [sum_map_sub]
  unfold mean
  rw [mul_div_cancel₀ _ hn]
  simp

/-- C3: for any crop with all sampled indices in range, the appended target
rows are exactly the residual priorModel minus groundTruth minus 273.16 at
each sampled index, centered by the per-crop mean, and the exact mean of
the centered rows is 0. -/
theorem centered_residual_rows (m1 ir : List ℚ) (rand : List Nat)
    (hne : rand ≠ [])
    (hm : ∀ i ∈ rand, i < m1.length) (hi : ∀ i ∈ rand, i < ir.length) :
    cropPredError m1 ir rand =
      Except.ok (rand.map fun i => m1.getD i 0 - ir.getD i 0 - kelvinOffset) ∧
    cropTarget m1 ir rand =
      Except.ok (centerList (rand.map fun i => m1.getD i 0 - ir.getD i 0 - kelvinOffset)) ∧
    mean (centerList (rand.map fun i => m1.getD i 0 - ir.getD i 0 - kelvinOffset)) = 0 := by
  have he : cropPredError m1 ir rand =
      Except.ok (rand.map fun i => m1.getD i 0 - ir.getD i 0 - kelvinOffset) := by
    unfold cropPredError
    rw [fancyIdx_ok m1 rand hm, fancyIdx_ok ir rand hi]
    exact congrArg Except.ok (zipWith_map_same (fun x y => x - y - kelvinOffset) _ _ rand)
  refine ⟨he, ?_, ?_⟩
  · unfold cropTarget
    rw [he]
    rfl
  · apply mean_centerList
    intro habs
    exact hne (List.map_eq_nil_iff.mp habs)

/-- C3 witness: one crop with prior-model value 300, ground truth 20,
sampled index list [0]. -/
theorem centered_residual_rows_witness :
    cropPredError [300] [20] [0] =
      Except.ok (([0] : List Nat).map fun i =>
        ([300] : List ℚ).getD i 0 - ([20] : List ℚ).getD i 0 - kelvinOffset) ∧
    cropTarget [300] [20] [0] =
      Except.ok (centerList (([0] : List Nat).map fun i =>
        ([300] : List ℚ).getD i 0 - ([20] : List ℚ).getD i 0 - kelvinOffset)) ∧
    mean (centerList (([0] : List Nat).map fun i =>
      ([300] : List ℚ).getD i 0 - ([20] : List ℚ).getD i 0 - kelvinOffset)) = 0 :=
  centered_residual_rows [300] [20] [0] (by decide) (by decide) (by decide)

/-! ## The sample mask -/

theorem foldl_set_getD (rand : List Nat) :
    ∀ (l : List ℚ) (p : Nat), p < l.length →
    (rand.foldl (fun m i => m.set i 1) l).getD p 0 =
      if p ∈ rand then 1 else l.getD p 0 := by
  induction rand with
  | nil => simp
  | cons a rest ih =>
    intro l p hp
    have hlen : (l.set a 1).length = l.length := List.length_set l a 1
    rw [List.foldl_cons, ih (l.set a 1) p (by omega)]
    by_cases hpr : p ∈ rest
    · simp [hpr, List.mem_cons]
    · by_cases hpa : p = a
      · subst hpa
        simp only [List.mem_cons, hpr, or_false, if_pos rfl]
        rw [List.getD_eq_getElem?_getD]
        simp [List.getElem?_set_self, hp]
      · have : ¬ p ∈ a :: rest := by
          simp [List.mem_cons, hpa, hpr]
        simp only [this, if_false, hpr, if_false]
        rw [List.getD_eq_getElem?_getD, List.getElem?_set_ne (Ne.symm hpa),
          ← List.getD_eq_getElem?_getD]

theorem maskFlat_length (N : Nat) (rand : List Nat) :
    (maskFlat N rand).length = N * N := by
  unfold maskFlat
  have : ∀ (r : List Nat) (l : List ℚ),
      (r.foldl (fun m i => m.set i 1) l).length = l.length := by
    intro r
    induction r with
    | nil => intro l; rfl
    | cons a rest ih =>
      intro l
      rw [List.foldl_cons, ih (l.set a 1), List.length_set]
  rw [this]
  exact List.length_replicate (N * N) 0

theorem maskFlat_getD (N : Nat) (rand : List Nat) (p : Nat) (hp : p < N * N) :
    (maskFlat N rand).getD p 0 = if p ∈ rand then 1 else 0 := by
  unfold maskFlat
  rw [foldl_set_getD rand _ p (by simpa using hp)]
  by_cases h : p ∈ rand
  · simp [h]
  · simp only [h, if_false]
    rw [List.getD_eq_getElem?_getD]
    simp [List.getElem?_replicate, hp]

theorem reshape_entry (N : Nat) (xs : List ℚ) (i j : Nat) (hi : i < N) (hj : j < N) :
    ((reshape N xs).getD i []).getD j 0 = xs.getD (i * N + j) 0 := by
  have hrow : (reshape N xs).getD i [] = (xs.drop (i * N)).take N := by
    rw [List.getD_eq_getElem?_getD]
    simp [reshape, List.getElem?_map, List.getElem?_range hi]
  rw [hrow, List.getD_eq_getElem?_getD]
  simp only [List.getElem?_take, hj, if_true, List.getElem?_drop]
  rw [← List.getD_eq_getElem?_getD]

/-- C10: the mask stored for a crop is 1 exactly at the positions whose
flat index occurs in the sampled index sequence and 0 elsewhere, both on
the flat array and entrywise on the reshaped N-by-N grid; duplicated
sampled indices collapse to a single mask entry, so the number of ones can
be strictly smaller than the number of rows the crop contributes. -/
theorem mask_indicator (N : Nat) (rand : List Nat) (_hb : ∀ i ∈ rand, i < N * N) :
    (∀ p, p < N * N → (maskFlat N rand).getD p 0 = if p ∈ rand then 1 else 0) ∧
    (∀ i j, i < N → j < N →
      ((reshape N (maskFlat N rand)).getD i []).getD j 0 =
        if i * N + j ∈ rand then 1 else 0) ∧
    (maskFlat 2 [1, 1]).count 1 < ([1, 1] : List Nat).length := by
  refine ⟨fun p hp => maskFlat_getD N rand p hp, fun i j hi hj => ?_, by decide⟩
  rw [reshape_entry N _ i j hi hj]
  exact maskFlat_getD N rand (i * N + j) (crossIndex_lt N i j hi hj)

/-- C10 witness: N = 2 with the duplicated sample list [1, 1]. -/
theorem mask_indicator_witness :
    (∀ p, p < 2 * 2 → (maskFlat 2 [1, 1]).getD p 0 = if p ∈ [1, 1] then 1 else 0) ∧
    (∀ i j, i < 2 → j < 2 →
      ((reshape 2 (maskFlat 2 [1, 1])).getD i []).getD j 0 =
        if i * 2 + j ∈ [1, 1] then 1 else 0) ∧
    (maskFlat 2 [1, 1]).count 1 < ([1, 1] : List Nat).length :=
  mask_indicator 2 [1, 1] (by decide)

/-! ## Inference runner, schema, catalog, and build errors -/

theorem flatMap_if_eq_filter (L T : List String)
    (g : String → List (String × List (List ℚ))) :
    (L.flatMap fun f => if f ∈ T then [] else g f) =
      (L.filter fun f => decide (f ∉ T)).flatMap g := by
  induction L with
  | nil => rfl
  | cons a l ih =>
    by_cases h : a ∈ T
    · simp [h, ih]
    · simp [h, ih]

/-- C4: `test` emits, for each catalog flight not in the training set,
exactly one output per crop and nothing for training-set flights; each
output pairs the prior-model basename with its last 4 characters stripped
and `_Correction_map.npy` appended with the flat prediction reshaped into
an N-by-N grid whose (i, j) entry is prediction i*N + j (row-major). -/
theorem test_outputs_spec (st : TestState) (predict : List (String × List ℚ) → List ℚ) :
    test st predict =
      (st.uniqueFlights.filter fun f => decide (f ∉ st.trainFlights)).flatMap
        (fun f => (st.crops f).map fun c =>
          (outputName c.m1Path, reshape st.N (predict (featureTable c)))) ∧
    (∀ f ∈ st.uniqueFlights, f ∉ st.trainFlights → ∀ c ∈ st.crops f,
      (outputName c.m1Path, reshape st.N (predict (featureTable c))) ∈ test st predict ∧
      ∀ i j, i < st.N → j < st.N →
        ((reshape st.N (predict (featureTable c))).getD i []).getD j 0 =
          (predict (featureTable c)).getD (i * st.N + j) 0) ∧
    outputName "maps/flight_07_model.tif" = "flight_07_model_Correction_map.npy" := by
  refine ⟨flatMap_if_eq_filter st.uniqueFlights st.trainFlights _, ?_, by decide⟩
  intro f hf hnot c hc
  constructor
  · simp only [test, List.mem_flatMap]
    refine ⟨f, hf, ?_⟩
    simp only [hnot, if_false, List.mem_map]
    exact ⟨c, hc, rfl⟩
  · intro i j hi hj
    exact reshape_entry st.N _ i j hi hj

/-- C5: the feature table assembled at inference has exactly the columns,
in the same order, of the feature matrix `X` used at training (the
`RF_train_df` columns with `index` and `PredErrorM1` dropped). -/
theorem feature_schema_train_eq_test (c : CropFiles) :
    (featureTable c).map Prod.fst = trainXColumns ∧
    trainXColumns = ["PredM1", "TGI", "Height", "Shade", "RealSolar", "Skyview"] :=
  ⟨rfl, rfl⟩

/-- C6: calling the schema-checked `predict` on a feature table whose
columns are the training schema minus one required column yields
`SchemaMismatch` and no predictions. -/
theorem predictChecked_missing_column (schema : List String)
    (pred : List (String × List ℚ) → List ℚ) (table : List (String × List ℚ))
    (col : String) (hcol : col ∈ schema)
    (htab : table.map Prod.fst = schema.erase col) :
    predictChecked schema pred table = Except.error PredictError.schemaMismatch := by
  have hlen : (schema.erase col).length = schema.length - 1 :=
    List.length_erase_of_mem hcol
  have hpos : 0 < schema.length := List.length_pos.mpr (List.ne_nil_of_mem hcol)
  have hne : table.map Prod.fst ≠ schema := by
    rw [htab]
    intro he
    have := congrArg List.length he
    omega
  simp [predictChecked, hne]

/-- C6 witness: the training schema with the `TGI` column removed. -/
theorem predictChecked_missing_column_witness :
    predictChecked ["PredM1", "TGI", "Height", "Shade", "RealSolar", "Skyview"]
      (fun _ => [])
      [("PredM1", []), ("Height", []), ("Shade", []), ("RealSolar", []), ("Skyview", [])] =
      Except.error PredictError.schemaMismatch :=
  predictChecked_missing_column _ _ _ "TGI" (by decide) (by decide)

/-- C7: on a listing where flight `A` has a prior-model file and a `TGI`
file but no `height` file, catalog construction silently yields ragged
per-role lists (1 `TGI` path, 0 `height` paths, 1 prior-model path); no
`CatalogIncomplete` error exists anywhere in the construction. -/
theorem catalog_missing_role_partial :
    uniqueFlights incompleteListing = ["A"] ∧
    (roleFiles incompleteListing "TGI").length = 1 ∧
    (roleFiles incompleteListing "height").length = 0 ∧
    incompleteListing.outputFiles.length = 1 := by
  refine ⟨by decide, by decide, by decide, by decide⟩

theorem cropColumns_ok (c : TrainCrop) (rand : List Nat)
    (h1 : ∀ i ∈ rand, i < c.tgi.length) (h2 : ∀ i ∈ rand, i < c.height.length)
    (h3 : ∀ i ∈ rand, i < c.shade.length) (h4 : ∀ i ∈ rand, i < c.realSolar.length)
    (h5 : ∀ i ∈ rand, i < c.skyview.length) (h6 : ∀ i ∈ rand, i < c.m1.length)
    (h7 : ∀ i ∈ rand, i < c.ir.length) :
    cropColumns c rand = Except.ok
      [rand.map (fun i => c.tgi.getD i 0),
       rand.map (fun i => c.height.getD i 0),
       rand.map (fun i => c.shade.getD i 0),
       rand.map (fun i => c.realSolar.getD i 0),
       rand.map (fun i => c.skyview.getD i 0),
       rand.map (fun i => c.m1.getD i 0),
       centerList (rand.map fun i => c.m1.getD i 0 - c.ir.getD i 0 - kelvinOffset)] := by
  have hpe : cropPredError c.m1 c.ir rand =
      Except.ok (rand.map fun i => c.m1.getD i 0 - c.ir.getD i 0 - kelvinOffset) := by
    unfold cropPredError
    rw [fancyIdx_ok _ _ h6, fancyIdx_ok _ _ h7]
    exact congrArg Except.ok (zipWith_map_same (fun x y => x - y - kelvinOffset) _ _ rand)
  unfold cropColumns
  simp only [fancyIdx_ok _ _ h1, fancyIdx_ok _ _ h2, fancyIdx_ok _ _ h3,
    fancyIdx_ok _ _ h4, fancyIdx_ok _ _ h5, fancyIdx_ok _ _ h6, hpe]
  rfl

/-- C8: with a mismatched (1-by-1) first crop in an N = 2 run, the sampled
flat index 3 is out of range, so `split_data` propagates `IndexError` and
aborts the whole build, even though the remaining correctly-sized crop
would have succeeded on its own. -/
theorem splitData_mismatched_raster_aborts :
    splitData 2 1 (fun _ _ => 1) [badCrop, goodCrop] =
      Except.error BuildError.indexError ∧
    (∃ t, splitData 2 1 (fun _ _ => 1) [goodCrop] = Except.ok t) := by
  constructor
  · rfl
  · have hin : ∀ p ∈ semi_random_sample 2 1 ((fun _ _ => (1 : Nat)) 0), p < 2 * 2 :=
      mem_semi_random_sample_lt 2 1 _ (by decide) (by decide)
    have hcols := cropColumns_ok goodCrop (semi_random_sample 2 1 ((fun _ _ => (1 : Nat)) 0))
      hin hin hin hin hin hin hin
    have hfinal : splitData 2 1 (fun _ _ => 1) [goodCrop] =
        Except.ok [[(semi_random_sample 2 1 ((fun _ _ => (1 : Nat)) 0)).map
            (fun i => goodCrop.tgi.getD i 0),
          (semi_random_sample 2 1 ((fun _ _ => (1 : Nat)) 0)).map
            (fun i => goodCrop.height.getD i 0),
          (semi_random_sample 2 1 ((fun _ _ => (1 : Nat)) 0)).map
            (fun i => goodCrop.shade.getD i 0),
          (semi_random_sample 2 1 ((fun _ _ => (1 : Nat)) 0)).map
            (fun i => goodCrop.realSolar.getD i 0),
          (semi_random_sample 2 1 ((fun _ _ => (1 : Nat)) 0)).map
            (fun i => goodCrop.skyview.getD i 0),
          (semi_random_sample 2 1 ((fun _ _ => (1 : Nat)) 0)).map
            (fun i => goodCrop.m1.getD i 0),
          centerList ((semi_random_sample 2 1 ((fun _ _ => (1 : Nat)) 0)).map
            fun i => goodCrop.m1.getD i 0 - goodCrop.ir.getD i 0 - kelvinOffset)]] := by
      unfold splitData
      simp only [splitDataGo, hcols]
    exact ⟨_, hfinal⟩

end RFModel
